import Mathlib

/-!
Verification of the client-side synchronization core of the playlist downloader
web client: the snapshot diffing store, the completion deduplicator and its
side-effect dispatcher (web/src/App.tsx), and the sequential mobile download
queue (web/src/hooks/useMobileQueue.ts).  Each definition is a shallow
embedding of the corresponding TypeScript function; theorems settle the
documented properties of those functions.
-/

namespace Aura

/-- Task status, the closed union TaskStatus from web/src/api/types.ts. -/
inductive TaskStatus where
  | pending
  | preparing
  | ready
  | queued
  | downloading
  | zipping
  | completed
  | cancelled
  | taskError
deriving DecidableEq, Repr, Inhabited

/-- Server task record mirrored on the client (web/src/api/types.ts), restricted
to the fields the synchronization core reads. -/
structure Task where
  id : String
  title : Option String := none
  progress : ℚ
  status : TaskStatus
  message : Option String := none
deriving DecidableEq, Repr

/-- Positional comparison used by the snapshot diff (App.tsx line 222-225):
true when any of id, status, progress, message differs. -/
def taskChanged (p t : Task) : Bool :=
  decide (p.id ≠ t.id ∨ p.status ≠ t.status ∨ p.progress ≠ t.progress ∨ p.message ≠ t.message)

/-- The setAllTasks diffing store (App.tsx lines 217-228): keep the previous
list unless the length changed or some positional tuple differs. -/
def diffTasks (prev next : List Task) : List Task :=
  if prev.length ≠ next.length then next
  else if (next.zip prev).any (fun tp => taskChanged tp.2 tp.1) then next
  else prev

/-- Message shown by the optimistic cancel (App.tsx line 191). -/
def msgCancelling : String := "Cancelling…"

/-- Message set when the cancel request rejects (App.tsx line 198). -/
def msgCancelFailed : String := "Cancel failed"

/-- handleCancelTask optimistic update (App.tsx line 191): the matching task is
shown cancelled immediately. -/
def cancelOptimistic (id : String) (tasks : List Task) : List Task :=
  tasks.map fun t =>
    if t.id = id then { t with status := .cancelled, message := some msgCancelling } else t

/-- handleCancelTask failure path (App.tsx line 198): only the message of the
matching task is updated. -/
def cancelRejected (id : String) (tasks : List Task) : List Task :=
  tasks.map fun t =>
    if t.id = id then { t with message := some msgCancelFailed } else t

theorem taskChanged_iff (p t : Task) :
    taskChanged p t = true ↔
      (p.id ≠ t.id ∨ p.status ≠ t.status ∨ p.progress ≠ t.progress ∨ p.message ≠ t.message) := by
  simp [taskChanged]

theorem any_zip_changed (next prev : List Task) :
    ((next.zip prev).any fun tp => taskChanged tp.2 tp.1) = true ↔
      ∃ i, ∃ hn : i < next.length, ∃ hp : i < prev.length,
        taskChanged (prev.get ⟨i, hp⟩) (next.get ⟨i, hn⟩) = true := by
  induction next generalizing prev with
  | nil => simp
  | cons t ts ih =>
    cases prev with
    | nil => simp
    | cons p ps =>
      simp only [List.zip_cons_cons, List.any_cons, Bool.or_eq_true, ih ps]
      constructor
      · rintro (h | ⟨i, hn, hp, h⟩)
        · exact ⟨0, by simp, by simp, h⟩
        · exact ⟨i + 1, by simpa using hn, by simpa using hp, h⟩
      · rintro ⟨i, hn, hp, h⟩
        cases i with
        | zero => exact Or.inl h
        | succ i =>
          exact Or.inr ⟨i, by simpa using hn, by simpa using hp, h⟩

/-- C2: the Diffing Store returns the next list on a length mismatch, returns
the next list when some position differs in id, status, progress or message,
and otherwise returns the previous list reference unchanged. -/
theorem diffing_store_spec (prev next : List Task) :
    (prev.length ≠ next.length → diffTasks prev next = next) ∧
    (prev.length = next.length →
      (∃ i, ∃ hn : i < next.length, ∃ hp : i < prev.length,
        (prev.get ⟨i, hp⟩).id ≠ (next.get ⟨i, hn⟩).id ∨
        (prev.get ⟨i, hp⟩).status ≠ (next.get ⟨i, hn⟩).status ∨
        (prev.get ⟨i, hp⟩).progress ≠ (next.get ⟨i, hn⟩).progress ∨
        (prev.get ⟨i, hp⟩).message ≠ (next.get ⟨i, hn⟩).message) →
      diffTasks prev next = next) ∧
    (prev.length = next.length →
      (∀ i (hn : i < next.length) (hp : i < prev.length),
        (prev.get ⟨i, hp⟩).id = (next.get ⟨i, hn⟩).id ∧
        (prev.get ⟨i, hp⟩).status = (next.get ⟨i, hn⟩).status ∧
        (prev.get ⟨i, hp⟩).progress = (next.get ⟨i, hn⟩).progress ∧
        (prev.get ⟨i, hp⟩).message = (next.get ⟨i, hn⟩).message) →
      diffTasks prev next = prev) := by
  refine ⟨fun h => ?_, fun hlen h => ?_, fun hlen h => ?_⟩
  · simp [diffTasks, h]
  · have hany : ((next.zip prev).any fun tp => taskChanged tp.2 tp.1) = true := by
      rw [any_zip_changed]
      obtain ⟨i, hn, hp, hdiff⟩ := h
      exact ⟨i, hn, hp, (taskChanged_iff _ _).2 hdiff⟩
    simp [diffTasks, hlen, hany]
  · have hany : ((next.zip prev).any fun tp => taskChanged tp.2 tp.1) = false := by
      by_contra hne
      have : ((next.zip prev).any fun tp => taskChanged tp.2 tp.1) = true := by
        revert hne
        cases ((next.zip prev).any fun tp => taskChanged tp.2 tp.1) <;> simp
      obtain ⟨i, hn, hp, hch⟩ := (any_zip_changed next prev).1 this
      have heq := h i hn hp
      rw [taskChanged_iff] at hch
      rcases hch with hc | hc | hc | hc
      · exact hc heq.1
      · exact hc heq.2.1
      · exact hc heq.2.2.1
      · exact hc heq.2.2.2
    simp [diffTasks, hlen, hany]

/-- C8: issuing a cancel immediately sets the matching task to cancelled with
message "Cancelling…" and leaves every other task unchanged; if the request then
rejects, only the message changes to "Cancel failed" while the status stays
cancelled and all other tasks remain unchanged. -/
theorem cancel_optimistic_then_reject (id : String) (tasks : List Task)
    (i : Nat) (t : Task) (hget : tasks[i]? = some t) :
    (t.id ≠ id →
      (cancelOptimistic id tasks)[i]? = some t ∧
      (cancelRejected id (cancelOptimistic id tasks))[i]? = some t) ∧
    (t.id = id →
      (cancelOptimistic id tasks)[i]? =
        some { t with status := .cancelled, message := some msgCancelling } ∧
      (cancelRejected id (cancelOptimistic id tasks))[i]? =
        some { t with status := .cancelled, message := some msgCancelFailed }) := by
  constructor
  · intro hne
    have h1 : (cancelOptimistic id tasks)[i]? = some t := by
      simp [cancelOptimistic, List.getElem?_map, hget, hne]
    have h2 : (cancelRejected id (cancelOptimistic id tasks))[i]? = some t := by
      simp [cancelRejected, List.getElem?_map, h1, hne]
    exact ⟨h1, h2⟩
  · intro heq
    have h1 : (cancelOptimistic id tasks)[i]? =
        some { t with status := .cancelled, message := some msgCancelling } := by
      simp [cancelOptimistic, List.getElem?_map, hget, heq]
    have h2 : (cancelRejected id (cancelOptimistic id tasks))[i]? =
        some { t with status := .cancelled, message := some msgCancelFailed } := by
      simp [cancelRejected, List.getElem?_map, h1, heq]
    exact ⟨h1, h2⟩

/-- Example tasks for witnesses. -/
def exT1 : Task := { id := "t1", progress := 40, status := .downloading }

/-- Second example task for witnesses. -/
def exT2 : Task := { id := "t2", progress := 10, status := .pending }

/-- Example id the cancel witnesses target. -/
def exCancelId : String := "t2"

/-- Witness for C8 at a concrete two-task list: task t1 is untouched and task
t2 is cancelled then marked "Cancel failed". -/
theorem cancel_optimistic_then_reject_witness :
    ((cancelOptimistic exCancelId [exT1, exT2])[0]? = some exT1 ∧
      (cancelRejected exCancelId (cancelOptimistic exCancelId [exT1, exT2]))[0]? = some exT1) ∧
    ((cancelOptimistic exCancelId [exT1, exT2])[1]? =
        some { exT2 with status := .cancelled, message := some msgCancelling } ∧
      (cancelRejected exCancelId (cancelOptimistic exCancelId [exT1, exT2]))[1]? =
        some { exT2 with status := .cancelled, message := some msgCancelFailed }) :=
  ⟨(cancel_optimistic_then_reject exCancelId [exT1, exT2] 0 exT1 rfl).1 (by decide),
   (cancel_optimistic_then_reject exCancelId [exT1, exT2] 1 exT2 rfl).2 (by decide)⟩

/-- Witness for C2 at concrete lists: equal tuples keep the previous list. -/
theorem diffing_store_spec_witness :
    diffTasks [exT1] [exT1] = [exT1] ∧ diffTasks [exT1] [exT1, exT2] = [exT1, exT2] :=
  ⟨(diffing_store_spec [exT1] [exT1]).2.2 rfl (by decide),
   (diffing_store_spec [exT1] [exT1, exT2]).1 (by decide)⟩

/-- Device and runtime facts consulted by the side-effect dispatcher
(isMobile, window.Notification, Notification.permission). -/
structure DeviceEnv where
  mobile : Bool
  notifAvailable : Bool
  notifPermission : String
deriving Repr

/-- Observable side effects of the poll handler in App.tsx. -/
inductive AppEffect where
  | toast (message : String) (success : Bool)
  | notify (body : String)
  | autoSave (taskId : String)
  | requestPermission
deriving DecidableEq, Repr

/-- Interpolation of t.title into the toast text (App.tsx line 247); an absent
title interpolates as the string undefined. -/
def toastTitle (t : Task) : String := t.title.getD "undefined"

/-- Fallback of t.title to Playlist in the notification body (App.tsx 252). -/
def notifyTitle (t : Task) : String :=
  match t.title with
  | none => "Playlist"
  | some s => if s = "" then "Playlist" else s

/-- Side effects run for one newly completed task (App.tsx lines 246-271):
toast, system notification when permission is granted, auto-save on desktop. -/
def dispatchEffects (env : DeviceEnv) (t : Task) : List AppEffect :=
  AppEffect.toast
      (if env.mobile then "\"" ++ toastTitle t ++ "\" ready! Open Downloads to save."
       else "\"" ++ toastTitle t ++ "\" ready! Saving...") true ::
    ((if env.notifAvailable ∧ env.notifPermission = "granted" then
        [AppEffect.notify (notifyTitle t ++ " is ready for download.")]
      else []) ++
     (if env.mobile then [] else [AppEffect.autoSave t.id]))

/-- Set.add on the handledCompletions set (membership-faithful). -/
def addId (handled : List String) (id : String) : List String :=
  if id ∈ handled then handled else id :: handled

/-- The Auto Download Check loop (App.tsx lines 242-273): walks the snapshot,
admits each newly completed id into the handled set, and returns the tasks
whose completion block ran, in order. -/
def autoCheck (handled : List String) : List Task → List String × List Task
  | [] => (handled, [])
  | t :: ts =>
    if t.status = .completed ∧ t.id ∉ handled then
      let r := autoCheck (addId handled t.id) ts
      (r.1, t :: r.2)
    else autoCheck handled ts

/-- Client state threaded through polls: the task list store, the
handledCompletions ref and the isFirstLoad flag (App.tsx lines 42-44). -/
structure AppState where
  allTasks : List Task
  handled : List String
  isFirstLoad : Bool
deriving Repr

/-- One successful poll tick (App.tsx lines 208-273), restricted to the diffing
store, the first-load admission and the Auto Download Check; returns the new
state, the dispatched tasks and the emitted effects.  On the first load every
already-completed id is admitted silently and the handler returns before the
Auto Download Check. -/
def pollStep (env : DeviceEnv) (st : AppState) (snapshot : List Task) :
    AppState × List Task × List AppEffect :=
  let tasks2 := diffTasks st.allTasks snapshot
  if st.isFirstLoad then
    ({ allTasks := tasks2,
       handled := snapshot.foldl
         (fun h t => if t.status = .completed then addId h t.id else h) st.handled,
       isFirstLoad := false },
     [],
     if env.notifAvailable ∧ env.notifPermission = "default" then
       [AppEffect.requestPermission]
     else [])
  else
    let r := autoCheck st.handled snapshot
    ({ allTasks := tasks2, handled := r.1, isFirstLoad := false },
     r.2, (r.2.map (dispatchEffects env)).flatten)

/-- Iterated polling: the deduplicator state threaded across snapshots, with
the dispatched tasks of every poll concatenated in order. -/
def runPolls (env : DeviceEnv) (st : AppState) : List (List Task) → AppState × List Task
  | [] => (st, [])
  | s :: ss =>
    let r := pollStep env st s
    let rest := runPolls env r.1 ss
    (rest.1, r.2.1 ++ rest.2)

theorem mem_addId (handled : List String) (a id : String) :
    a ∈ addId handled id ↔ a = id ∨ a ∈ handled := by
  by_cases h : id ∈ handled
  · simp only [addId, if_pos h]
    constructor
    · exact Or.inr
    · rintro (rfl | ha)
      · exact h
      · exact ha
  · simp [addId, if_neg h]

theorem autoCheck_handled_of_mem (ts : List Task) (handled : List String) (id : String)
    (h : id ∈ handled) :
    id ∈ (autoCheck handled ts).1 ∧
      (autoCheck handled ts).2.countP (fun t => decide (t.id = id)) = 0 := by
  induction ts generalizing handled with
  | nil => simpa [autoCheck] using h
  | cons t ts ih =>
    by_cases hc : t.status = .completed ∧ t.id ∉ handled
    · have hne : t.id ≠ id := fun he => hc.2 (he ▸ h)
      have hmem : id ∈ addId handled t.id := (mem_addId handled id t.id).2 (Or.inr h)
      have := ih (addId handled t.id) hmem
      simp only [autoCheck, if_pos hc]
      refine ⟨this.1, ?_⟩
      simp [List.countP_cons, this.2, hne]
    · simp only [autoCheck, if_neg hc]
      exact ih handled h

theorem autoCheck_count_le_one (ts : List Task) (handled : List String) (id : String) :
    (autoCheck handled ts).2.countP (fun t => decide (t.id = id)) ≤ 1 ∧
    (0 < (autoCheck handled ts).2.countP (fun t => decide (t.id = id)) →
      id ∈ (autoCheck handled ts).1) := by
  induction ts generalizing handled with
  | nil => simp [autoCheck]
  | cons t ts ih =>
    by_cases hc : t.status = .completed ∧ t.id ∉ handled
    · simp only [autoCheck, if_pos hc]
      by_cases hid : t.id = id
      · subst hid
        have hmem : t.id ∈ addId handled t.id := (mem_addId handled t.id t.id).2 (Or.inl rfl)
        have hz := autoCheck_handled_of_mem ts (addId handled t.id) t.id hmem
        constructor
        · simp [List.countP_cons, hz.2]
        · intro _
          exact hz.1
      · have := ih (addId handled t.id)
        constructor
        · simpa [List.countP_cons, hid] using this.1
        · intro hpos
          apply this.2
          simpa [List.countP_cons, hid] using hpos
    · simp only [autoCheck, if_neg hc]
      exact ih handled

theorem firstLoad_fold_mem (snapshot : List Task) (handled : List String) (id : String)
    (h : id ∈ handled) :
    id ∈ snapshot.foldl (fun h t => if t.status = .completed then addId h t.id else h) handled := by
  induction snapshot generalizing handled with
  | nil => simpa using h
  | cons t ts ih =>
    simp only [List.foldl_cons]
    by_cases hc : t.status = .completed
    · rw [if_pos hc]
      exact ih (addId handled t.id) ((mem_addId handled id t.id).2 (Or.inr h))
    · rw [if_neg hc]
      exact ih handled h

theorem firstLoad_fold_admits (snapshot : List Task) (handled : List String) (t : Task)
    (ht : t ∈ snapshot) (hc : t.status = .completed) :
    t.id ∈ snapshot.foldl (fun h u => if u.status = .completed then addId h u.id else h) handled := by
  induction snapshot generalizing handled with
  | nil => cases ht
  | cons u us ih =>
    simp only [List.foldl_cons]
    rcases List.mem_cons.1 ht with rfl | hmem
    · simp only [if_pos hc]
      exact firstLoad_fold_mem us _ t.id ((mem_addId handled t.id t.id).2 (Or.inl rfl))
    · by_cases hu : u.status = .completed
      · simp only [if_pos hu]
        exact ih _ hmem
      · simp only [if_neg hu]
        exact ih _ hmem

theorem pollStep_handled_of_mem (env : DeviceEnv) (st : AppState) (snapshot : List Task)
    (id : String) (h : id ∈ st.handled) :
    id ∈ (pollStep env st snapshot).1.handled ∧
      (pollStep env st snapshot).2.1.countP (fun t => decide (t.id = id)) = 0 := by
  by_cases hf : st.isFirstLoad
  · simp only [pollStep, if_pos hf]
    exact ⟨firstLoad_fold_mem snapshot st.handled id h, by simp⟩
  · simp only [pollStep, if_neg hf]
    exact autoCheck_handled_of_mem snapshot st.handled id h

theorem pollStep_count_le_one (env : DeviceEnv) (st : AppState) (snapshot : List Task)
    (id : String) :
    (pollStep env st snapshot).2.1.countP (fun t => decide (t.id = id)) ≤ 1 ∧
    (0 < (pollStep env st snapshot).2.1.countP (fun t => decide (t.id = id)) →
      id ∈ (pollStep env st snapshot).1.handled) := by
  by_cases hf : st.isFirstLoad
  · simp [pollStep, if_pos hf]
  · simp only [pollStep, if_neg hf]
    exact autoCheck_count_le_one snapshot st.handled id

theorem runPolls_zero_of_handled (env : DeviceEnv) (st : AppState)
    (snaps : List (List Task)) (id : String) (h : id ∈ st.handled) :
    (runPolls env st snaps).2.countP (fun t => decide (t.id = id)) = 0 ∧
      id ∈ (runPolls env st snaps).1.handled := by
  induction snaps generalizing st with
  | nil => simpa [runPolls] using h
  | cons s ss ih =>
    have hp := pollStep_handled_of_mem env st s id h
    have hr := ih (pollStep env st s).1 hp.1
    simp only [runPolls, List.countP_append]
    exact ⟨by rw [hp.2, hr.1], hr.2⟩

theorem runPolls_count_le_one (env : DeviceEnv) (st : AppState)
    (snaps : List (List Task)) (id : String) :
    (runPolls env st snaps).2.countP (fun t => decide (t.id = id)) ≤ 1 := by
  induction snaps generalizing st with
  | nil => simp [runPolls]
  | cons s ss ih =>
    simp only [runPolls, List.countP_append]
    rcases Nat.eq_zero_or_pos ((pollStep env st s).2.1.countP (fun t => decide (t.id = id))) with
      hz | hpos
    · rw [hz]
      simpa using ih (pollStep env st s).1
    · have h1 := (pollStep_count_le_one env st s id).1
      have hmem := (pollStep_count_le_one env st s id).2 hpos
      have hrest := (runPolls_zero_of_handled env (pollStep env st s).1 ss id hmem).1
      omega

/-- C1: once an id is recorded in the Completion Deduplicator's handled set, no
later snapshot reporting it completed dispatches the side-effect block again
for that id, and across any number of polls the block runs at most once per
id. -/
theorem completion_dedup_at_most_once (env : DeviceEnv) (st : AppState)
    (snaps : List (List Task)) (id : String) :
    (id ∈ st.handled →
      (runPolls env st snaps).2.countP (fun t => decide (t.id = id)) = 0) ∧
    (runPolls env st snaps).2.countP (fun t => decide (t.id = id)) ≤ 1 :=
  ⟨fun h => (runPolls_zero_of_handled env st snaps id h).1,
   runPolls_count_le_one env st snaps id⟩

/-- Completed example task used by the deduplicator witnesses. -/
def exDone : Task := { id := "t1", progress := 100, status := .completed }

/-- Desktop environment with granted notification permission, for witnesses. -/
def exEnv : DeviceEnv := { mobile := false, notifAvailable := true, notifPermission := "granted" }

/-- App state with id t1 already handled and the first load behind it. -/
def exHandledState : AppState := { allTasks := [], handled := ["t1"], isFirstLoad := false }

/-- Witness for C1: with t1 already handled, two further snapshots reporting it
completed dispatch nothing for t1. -/
theorem completion_dedup_at_most_once_witness :
    (runPolls exEnv exHandledState [[exDone], [exDone]]).2.countP
      (fun t => decide (t.id = "t1")) = 0 :=
  (completion_dedup_at_most_once exEnv exHandledState [[exDone], [exDone]] "t1").1
    (by decide)

/-- C3: on the first successful snapshot after mount, every task already
completed is admitted into the handled set with no dispatched task and no
side effect beyond the lazy permission request, and such an id never triggers
the completion block on any later poll. -/
theorem first_snapshot_silent (env : DeviceEnv) (st : AppState)
    (snap : List Task) (snaps : List (List Task)) (t : Task)
    (hfirst : st.isFirstLoad = true) (ht : t ∈ snap) (hc : t.status = .completed) :
    (pollStep env st snap).2.1 = [] ∧
    (∀ e ∈ (pollStep env st snap).2.2, e = AppEffect.requestPermission) ∧
    t.id ∈ (pollStep env st snap).1.handled ∧
    (runPolls env (pollStep env st snap).1 snaps).2.countP
      (fun u => decide (u.id = t.id)) = 0 := by
  have hstep : pollStep env st snap =
      ({ allTasks := diffTasks st.allTasks snap,
         handled := snap.foldl
           (fun h u => if u.status = .completed then addId h u.id else h) st.handled,
         isFirstLoad := false },
       [],
       if env.notifAvailable ∧ env.notifPermission = "default" then
         [AppEffect.requestPermission]
       else []) := by
    simp [pollStep, hfirst]
  refine ⟨by rw [hstep], ?_, ?_, ?_⟩
  · rw [hstep]
    intro e he
    by_cases hp : env.notifAvailable ∧ env.notifPermission = "default"
    · simp only [if_pos hp] at he
      simpa using he
    · simp only [if_neg hp] at he
      cases he
  · rw [hstep]
    exact firstLoad_fold_admits snap st.handled t ht hc
  · refine (runPolls_zero_of_handled env (pollStep env st snap).1 snaps t.id ?_).1
    rw [hstep]
    exact firstLoad_fold_admits snap st.handled t ht hc

/-- Fresh mount state for the C3 witness. -/
def exMountState : AppState := { allTasks := [], handled := [], isFirstLoad := true }

/-- Witness for C3: a task completed in the very first snapshot is admitted
silently and stays silent on a later identical snapshot. -/
theorem first_snapshot_silent_witness :
    (pollStep exEnv exMountState [exDone]).2.1 = [] ∧
    (∀ e ∈ (pollStep exEnv exMountState [exDone]).2.2, e = AppEffect.requestPermission) ∧
    exDone.id ∈ (pollStep exEnv exMountState [exDone]).1.handled ∧
    (runPolls exEnv (pollStep exEnv exMountState [exDone]).1 [[exDone]]).2.countP
      (fun u => decide (u.id = exDone.id)) = 0 :=
  first_snapshot_silent exEnv exMountState [exDone] [[exDone]] exDone rfl
    (by decide) (by decide)

/-- Status of a sequential-queue item, the closed union in
useMobileQueue.ts line 11. -/
inductive QStatus where
  | pending
  | preparing
  | ready
  | downloading
  | completed
  | qError
deriving DecidableEq, Repr, Inhabited

/-- One item of the sequential mobile download queue (useMobileQueue.ts 7-14). -/
structure QueueItem where
  id : String
  originalUrl : String
  title : String
  status : QStatus
  progress : ℚ
  downloadUrl : Option String := none
deriving DecidableEq, Repr, Inhabited

/-- Hex digit used by the percent encoder. -/
def hexDigit (n : Nat) : Char :=
  if n < 10 then Char.ofNat (48 + n) else Char.ofNat (55 + n)

/-- Characters encodeURIComponent leaves unescaped. -/
def uriUnreserved (c : Char) : Bool :=
  c.isAlphanum || c = Char.ofNat 45 || c = Char.ofNat 95 || c = Char.ofNat 46 ||
    c = Char.ofNat 33 || c = Char.ofNat 126 || c = Char.ofNat 42 || c = Char.ofNat 39 ||
    c = Char.ofNat 40 || c = Char.ofNat 41

/-- UTF-8 bytes of one character. -/
def utf8Bytes (c : Char) : List Nat :=
  let n := c.toNat
  if n < 128 then [n]
  else if n < 2048 then [192 + n / 64, 128 + n % 64]
  else if n < 65536 then [224 + n / 4096, 128 + n / 64 % 64, 128 + n % 64]
  else [240 + n / 262144, 128 + n / 4096 % 64, 128 + n / 64 % 64, 128 + n % 64]

/-- encodeURIComponent: unreserved characters pass through, everything else is
percent-encoded byte-wise. -/
def encodeURIComponent (s : String) : String :=
  String.mk (s.data.foldr
    (fun c acc =>
      if uriUnreserved c then c :: acc
      else (utf8Bytes c).foldr
        (fun b acc2 => Char.ofNat 37 :: hexDigit (b / 16) :: hexDigit (b % 16) :: acc2) acc)
    [])

/-- getDownloadUrl (useMobileQueue.ts 28-33) applied to an already fetched
token: the signed file URL. -/
def mkDownloadUrl (taskId token : String) : String :=
  "/api/download_file/" ++ taskId ++ "?token=" ++ encodeURIComponent token

/-- What one per-item poll tick observes for the item's task id in the /tasks
response.  A failed request and an absent task behave identically (both leave
the item untouched and keep polling), so both are absent here. -/
inductive ServerObs where
  | absent
  | found (status : String) (progress : Option ℚ)
deriving DecidableEq, Repr

/-- A single write to the queue slot of the item being processed. -/
inductive QUpdate where
  | setStatus (s : QStatus) (progress : ℚ)
  | setId (id : String)
  | setReady (downloadUrl : Option String)
deriving DecidableEq, Repr

/-- Apply one queue-slot write (updateStatus, the id overwrite after prepare,
and the completed-branch setQueue of useMobileQueue.ts). -/
def applyUpdate (item : QueueItem) : QUpdate → QueueItem
  | .setStatus s p => { item with status := s, progress := p }
  | .setId i => { item with id := i }
  | .setReady u => { item with status := .ready, progress := 100, downloadUrl := u }

/-- Apply the writes of a worker run in order. -/
def applyUpdates (item : QueueItem) (us : List QUpdate) : QueueItem :=
  us.foldl applyUpdate item

/-- Network and UI effects of the sequential queue. -/
inductive QEffect where
  | apiPrepare (url : String)
  | apiStart (taskId : String)
  | apiTasks
  | apiToken (taskId : String)
  | openNewTab (url : String)
  | advanceNext (delayMs : Nat)
  | alertDone
deriving DecidableEq, Repr

/-- The 50 to 90 percent progress mapping of useMobileQueue.ts line 142:
50 + (task.progress || 0) / 2.5. -/
def mapProgress (p : Option ℚ) : ℚ := 50 + p.getD 0 / (5 / 2)

/-- How control leaves one poll tick. -/
inductive TickExit where
  | keepPolling
  | stopReady
  | stopError
deriving DecidableEq, Repr

/-- One tick of the per-item polling loop (useMobileQueue.ts lines 137-177),
given the observation for this attempt and the token-fetch result consulted
when the task is completed. -/
def pollTick (taskId : String) (tokenRes : Option String) :
    ServerObs → List QEffect × List QUpdate × TickExit
  | .absent => ([.apiTasks], [], .keepPolling)
  | .found st p =>
    if st = "completed" then
      ([.apiTasks, .apiToken taskId],
       [.setStatus .downloading (mapProgress p), .setReady (tokenRes.map (mkDownloadUrl taskId))],
       .stopReady)
    else if st = "error" then
      ([.apiTasks],
       [.setStatus .downloading (mapProgress p), .setStatus .qError 0],
       .stopError)
    else
      ([.apiTasks], [.setStatus .downloading (mapProgress p)], .keepPolling)

/-- How control leaves the polling loop: the item became ready and the queue
waits for the user tap, or it errored and processNext is scheduled after the
given delay. -/
inductive PollExit where
  | ready
  | errAdvance (delayMs : Nat)
deriving DecidableEq, Repr

/-- The per-item polling loop with its attempt counter (useMobileQueue.ts
lines 127-181).  fuel is the number of attempts left before the 300-attempt
cap fires; the loop is entered with fuel 300 and attempt 1, and on the cap the
item is set to error with progress 0 and processNext runs immediately. -/
def runPoll (taskId : String) (obs : Nat → ServerObs) (tokenRes : Option String) :
    Nat → Nat → List QEffect × List QUpdate × PollExit
  | 0, _ => ([], [.setStatus .qError 0], .errAdvance 0)
  | fuel + 1, attempt =>
    let r := pollTick taskId tokenRes (obs attempt)
    match r.2.2 with
    | .keepPolling =>
      let rest := runPoll taskId obs tokenRes fuel (attempt + 1)
      (r.1 ++ rest.1, r.2.1 ++ rest.2.1, rest.2.2)
    | .stopReady => (r.1, r.2.1, .ready)
    | .stopError => (r.1, r.2.1, .errAdvance 1000)

/-- Environment of one worker run: the prepare result, whether start succeeds,
the per-attempt server observation, and the token-fetch result used on
completion. -/
structure ItemEnv where
  prepareResult : Option String
  startOk : Bool
  obs : Nat → ServerObs
  tokenRes : Option String

/-- How control leaves the per-item worker. -/
inductive ItemExit where
  | awaitTap
  | errAdvance (delayMs : Nat)
deriving DecidableEq, Repr

/-- processItem (useMobileQueue.ts lines 95-188): the effects it issues, the
writes it makes to its queue slot, and how control leaves it.  A missing
originalUrl throws before the prepare call; any throw lands in the catch which
sets error with progress 0 and schedules processNext after 1000 ms. -/
def runItem (env : ItemEnv) (item : QueueItem) : List QEffect × List QUpdate × ItemExit :=
  let u0 : List QUpdate := [.setStatus .preparing 10]
  if item.originalUrl = "" then
    ([], u0 ++ [.setStatus .qError 0], .errAdvance 1000)
  else
    match env.prepareResult with
    | none => ([.apiPrepare item.originalUrl], u0 ++ [.setStatus .qError 0], .errAdvance 1000)
    | some taskId =>
      if env.startOk then
        let r := runPoll taskId env.obs env.tokenRes 300 1
        ([.apiPrepare item.originalUrl, .apiStart taskId] ++ r.1,
         u0 ++ [.setId taskId, .setStatus .preparing 30, .setStatus .downloading 50] ++ r.2.1,
         match r.2.2 with
         | .ready => .awaitTap
         | .errAdvance d => .errAdvance d)
      else
        ([.apiPrepare item.originalUrl, .apiStart taskId],
         u0 ++ [.setId taskId, .setStatus .preparing 30, .setStatus .qError 0],
         .errAdvance 1000)

/-- queue.findIndex(item => item.status === 'pending') of processNext
(useMobileQueue.ts line 74); none models the -1 result. -/
def findPendingIdx : List QueueItem → Option Nat
  | [] => none
  | it :: q =>
    if it.status = .pending then some 0 else (findPendingIdx q).map (· + 1)

/-- State owned by useMobileQueue: the queue, currentIdx, the isProcessing
flag and the processingRef re-entrancy guard. -/
structure MQState where
  queue : List QueueItem
  currentIdx : Nat
  isProcessing : Bool
  processingRef : Bool
deriving DecidableEq, Repr

/-- A fresh pending item as built by addToQueue (useMobileQueue.ts 54-60);
idGen stands for the temp_ random id generator. -/
def mkPendingItem (idGen : Nat → String) (n : Nat) (it : String × String) : QueueItem :=
  { id := idGen n, originalUrl := it.1, title := it.2, status := .pending, progress := 0 }

/-- addToQueue (useMobileQueue.ts lines 50-64): a no-op while the re-entrancy
guard is set, otherwise replaces the queue with fresh pending items, resets
currentIdx and raises isProcessing. -/
def addToQueue (idGen : Nat → String) (st : MQState) (items : List (String × String)) : MQState :=
  if st.processingRef then st
  else
    { queue := items.mapIdx (fun n it => mkPendingItem idGen n it),
      currentIdx := 0,
      isProcessing := true,
      processingRef := st.processingRef }

/-- One driver round (processNext, useMobileQueue.ts lines 72-93, followed by
the worker): the first pending item is selected, marked current and run to its
exit; with no pending item left the queue signals completion and resets. -/
def stepQueue (env : ItemEnv) (st : MQState) : MQState × List QEffect × Option ItemExit :=
  match findPendingIdx st.queue with
  | none =>
    ({ st with queue := [], isProcessing := false, processingRef := false },
     [.alertDone], none)
  | some idx =>
    let item := st.queue.getD idx default
    let r := runItem env item
    ({ st with queue := st.queue.set idx (applyUpdates item r.2.1), currentIdx := idx },
     r.1, some r.2.2)

/-- Drive the queue across items: an error exit auto-advances to the next
pending item, a ready item stalls the queue until the user taps.  envs
supplies one environment per worker run. -/
def runQueue (st : MQState) : List ItemEnv → MQState
  | [] => st
  | env :: envs =>
    let r := stepQueue env st
    match r.2.2 with
    | none => r.1
    | some (.errAdvance _) => runQueue r.1 envs
    | some .awaitTap => r.1

/-- downloadCurrent (useMobileQueue.ts lines 199-227): the user-tap save on
the current item.  It always fetches a fresh token; on failure it returns with
nothing changed, on success it opens the freshly signed URL in a new tab,
marks the item completed with progress 100 and schedules processNext after
500 ms. -/
def downloadCurrent (st : MQState) (tokenRes : Option String) : MQState × List QEffect :=
  match st.queue[st.currentIdx]? with
  | none => (st, [])
  | some item =>
    if item.status = QStatus.ready then
      match tokenRes with
      | none => (st, [.apiToken item.id])
      | some tok =>
        ({ st with queue :=
            st.queue.set st.currentIdx { item with status := .completed, progress := 100 } },
         [.apiToken item.id, .openNewTab (mkDownloadUrl item.id tok), .advanceNext 500])
    else (st, [])

/-- The user tap followed by the driver continuing on the remaining items. -/
def tapAndContinue (st : MQState) (tokenRes : Option String) (envs : List ItemEnv) : MQState :=
  runQueue (downloadCurrent st tokenRes).1 envs

/-- C10: calling addToQueue while the re-entrancy guard is set is a complete
no-op: queue, currentIdx and isProcessing are unchanged and the supplied items
are silently discarded. -/
theorem addToQueue_noop_while_processing (idGen : Nat → String) (st : MQState)
    (items : List (String × String)) (h : st.processingRef = true) :
    addToQueue idGen st items = st := by
  simp [addToQueue, h]

/-- Id generator standing in for the temp_ random ids, for witnesses. -/
def exIdGen : Nat → String := fun n => "temp" ++ toString n

/-- A busy queue state whose re-entrancy guard is set, for the C10 witness. -/
def exBusyState : MQState :=
  { queue := [], currentIdx := 0, isProcessing := true, processingRef := true }

/-- Example source URL for queue items. -/
def exUrlA : String := "https://example.com/a"

/-- Second example source URL for queue items. -/
def exUrlC : String := "https://example.com/c"

/-- Witness for C10 at a concrete busy state and item list. -/
theorem addToQueue_noop_witness :
    addToQueue exIdGen exBusyState [(exUrlA, exUrlA)] = exBusyState :=
  addToQueue_noop_while_processing exIdGen exBusyState [(exUrlA, exUrlA)] rfl

/-- C6: while the polled task is found with a non-terminal status the item's
progress is written as 50 + serverProgress / 2.5, which lies in the 50 to 90
sub-range for every server progress in 0 to 100, and a missing server progress
is treated as 0, giving 50. -/
theorem progress_maps_to_sub_range :
    (∀ taskId tok st p, st ≠ "completed" → st ≠ "error" →
      (pollTick taskId tok (.found st p)).2.1 =
        [QUpdate.setStatus .downloading (mapProgress p)] ∧
      (pollTick taskId tok (.found st p)).2.2 = TickExit.keepPolling) ∧
    (∀ p : ℚ, 0 ≤ p → p ≤ 100 →
      50 ≤ mapProgress (some p) ∧ mapProgress (some p) ≤ 90) ∧
    mapProgress none = 50 := by
  refine ⟨?_, ?_, ?_⟩
  · intro taskId tok st p h1 h2
    constructor <;> simp [pollTick, h1, h2]
  · intro p h0 h100
    have h52 : (0 : ℚ) < 5 / 2 := by norm_num
    constructor
    · have hnn : 0 ≤ p / (5 / 2) := div_nonneg h0 (le_of_lt h52)
      simp only [mapProgress, Option.getD_some]
      linarith
    · have hub : p / (5 / 2) ≤ 40 := by
        rw [div_le_iff₀ h52]
        linarith
      simp only [mapProgress, Option.getD_some]
      linarith
  · simp [mapProgress]

/-- Status string of an in-flight server task, for witnesses. -/
def exStDownloading : String := "downloading"

/-- Task id used by queue witnesses. -/
def exTaskId : String := "t1"

/-- Witness for C6 at server progress 40: the tick writes 50 + 40 / 2.5 = 66
and the bounds hold. -/
theorem progress_maps_to_sub_range_witness :
    ((pollTick exTaskId none (.found exStDownloading (some 40))).2.1 =
      [QUpdate.setStatus .downloading (mapProgress (some 40))] ∧
     (pollTick exTaskId none (.found exStDownloading (some 40))).2.2 =
      TickExit.keepPolling) ∧
    (50 ≤ mapProgress (some 40) ∧ mapProgress (some 40) ≤ 90) :=
  ⟨progress_maps_to_sub_range.1 exTaskId none exStDownloading (some 40)
      (by decide) (by decide),
   progress_maps_to_sub_range.2.1 40 (by norm_num) (by norm_num)⟩

/-- C7: when the polled task reports completed, polling stops and the item
becomes ready with progress 100 whether or not the token pre-fetch succeeds;
the signed URL is stored exactly on success, and the download is never
auto-started (no tab is opened and no advance is scheduled by this branch). -/
theorem completed_branch_ready (taskId : String) (tok : Option String)
    (p : Option ℚ) (item : QueueItem) :
    (pollTick taskId tok (.found "completed" p)).2.2 = TickExit.stopReady ∧
    (applyUpdates item (pollTick taskId tok (.found "completed" p)).2.1).status = .ready ∧
    (applyUpdates item (pollTick taskId tok (.found "completed" p)).2.1).progress = 100 ∧
    (applyUpdates item (pollTick taskId tok (.found "completed" p)).2.1).downloadUrl =
      tok.map (mkDownloadUrl taskId) ∧
    ∀ e ∈ (pollTick taskId tok (.found "completed" p)).1,
      e = QEffect.apiTasks ∨ e = QEffect.apiToken taskId := by
  refine ⟨rfl, ?_, ?_, ?_, ?_⟩
  · simp [pollTick, applyUpdates, applyUpdate]
  · simp [pollTick, applyUpdates, applyUpdate]
  · simp [pollTick, applyUpdates, applyUpdate]
  · intro e he
    simp only [pollTick, if_pos rfl] at he
    simpa using he

/-- C9: the user-tap save on a ready current item always uses a freshly
fetched token: a failed fetch aborts with the whole state unchanged and the
item still ready, while a successful fetch opens the freshly signed URL in a
new tab, marks the item completed with progress 100 and schedules the advance
after 500 ms; the stored downloadUrl is never consulted for the opened URL. -/
theorem tap_save_fresh_token (st : MQState) (item : QueueItem)
    (hget : st.queue[st.currentIdx]? = some item) (hready : item.status = QStatus.ready) :
    downloadCurrent st none = (st, [QEffect.apiToken item.id]) ∧
    ∀ tok : String,
      downloadCurrent st (some tok) =
        ({ st with queue := (st.queue.set st.currentIdx
            { item with status := .completed, progress := 100 }) },
         [QEffect.apiToken item.id,
          QEffect.openNewTab (mkDownloadUrl item.id tok),
          QEffect.advanceNext 500]) := by
  constructor
  · simp [downloadCurrent, hget, hready]
  · intro tok
    simp [downloadCurrent, hget, hready]

/-- A ready queue item carrying a stale stored URL, for the C9 witness. -/
def exReadyItem : QueueItem :=
  { id := exTaskId, originalUrl := exUrlA, title := exUrlA, status := .ready,
    progress := 100, downloadUrl := some "stale" }

/-- Queue state whose current item is ready, for the C9 witness. -/
def exReadyState : MQState :=
  { queue := [exReadyItem], currentIdx := 0, isProcessing := true, processingRef := true }

/-- Fresh token fetched at tap time, for the C9 witness. -/
def exFreshTok : String := "fresh"

/-- Witness for C9: the failed fetch changes nothing, and the successful fetch
opens the freshly signed URL, ignoring the stale stored one. -/
theorem tap_save_fresh_token_witness :
    downloadCurrent exReadyState none = (exReadyState, [QEffect.apiToken exReadyItem.id]) ∧
    downloadCurrent exReadyState (some exFreshTok) =
      ({ exReadyState with queue := (exReadyState.queue.set exReadyState.currentIdx
          { exReadyItem with status := .completed, progress := 100 }) },
       [QEffect.apiToken exReadyItem.id,
        QEffect.openNewTab (mkDownloadUrl exReadyItem.id exFreshTok),
        QEffect.advanceNext 500]) :=
  ⟨(tap_save_fresh_token exReadyState exReadyItem rfl rfl).1,
   (tap_save_fresh_token exReadyState exReadyItem rfl rfl).2 exFreshTok⟩

theorem findPendingIdx_first (q : List QueueItem) (i : Nat) :
    findPendingIdx q = some i ↔
      ∃ it, q[i]? = some it ∧ it.status = .pending ∧
        ∀ j, j < i → ∀ u, q[j]? = some u → u.status ≠ .pending := by
  induction q generalizing i with
  | nil => simp [findPendingIdx]
  | cons a q ih =>
    by_cases ha : a.status = .pending
    · simp only [findPendingIdx, if_pos ha]
      constructor
      · intro h
        have hi : i = 0 := by
          cases h
          rfl
        subst hi
        exact ⟨a, by simp, ha, fun j hj u _ => absurd hj (Nat.not_lt_zero j)⟩
      · rintro ⟨it, hit, hp, hmin⟩
        cases i with
        | zero => rfl
        | succ i =>
          exact absurd ha (hmin 0 (Nat.succ_pos i) a (by simp))
    · simp only [findPendingIdx, if_neg ha]
      constructor
      · intro h
        cases hfq : findPendingIdx q with
        | none =>
          rw [hfq] at h
          cases h
        | some k =>
          rw [hfq] at h
          have hik : i = k + 1 := by
            cases h
            rfl
          subst hik
          obtain ⟨it, hit, hp, hmin⟩ := (ih k).1 hfq
          refine ⟨it, by simpa using hit, hp, ?_⟩
          intro j hj u hu
          cases j with
          | zero =>
            have hu2 : a = u := by simpa using hu
            exact hu2 ▸ ha
          | succ j =>
            exact hmin j (by omega) u (by simpa using hu)
      · rintro ⟨it, hit, hp, hmin⟩
        cases i with
        | zero =>
          have hit2 : a = it := by simpa using hit
          rw [← hit2] at hp
          exact absurd hp ha
        | succ i =>
          have hq : findPendingIdx q = some i := by
            apply (ih i).2
            refine ⟨it, by simpa using hit, hp, ?_⟩
            intro j hj u hu
            exact hmin (j + 1) (by omega) u (by simpa using hu)
          rw [hq]
          rfl

theorem invalid_url_fails_fast (env : ItemEnv) (item : QueueItem)
    (h : item.originalUrl = "") :
    runItem env item =
      ([], [.setStatus .preparing 10, .setStatus .qError 0], .errAdvance 1000) := by
  simp [runItem, h]

/-- Title of queue item A in the C4 scenario. -/
def exTitleA : String := "A"

/-- Title of queue item B in the C4 scenario. -/
def exTitleB : String := "B"

/-- Title of queue item C in the C4 scenario. -/
def exTitleC : String := "C"

/-- Absent originalUrl of the invalid queue item B. -/
def exNoUrl : String := ""

/-- Items handed to addToQueue in the C4 scenario: valid A, invalid B,
valid C. -/
def exScenarioItems : List (String × String) :=
  [(exUrlA, exTitleA), (exNoUrl, exTitleB), (exUrlC, exTitleC)]

/-- Server observation reporting the task completed at once. -/
def exObsDone : Nat → ServerObs := fun _ => .found "completed" (some 100)

/-- Token obtained for item A. -/
def exTokA : String := "tokA"

/-- Token obtained for item C. -/
def exTokC : String := "tokC"

/-- Worker environment of item A: prepare and start succeed, the server
reports completed on the first poll. -/
def envA : ItemEnv :=
  { prepareResult := some "tA", startOk := true, obs := exObsDone, tokenRes := some exTokA }

/-- Worker environment of item B (never consulted past the URL check). -/
def envB : ItemEnv :=
  { prepareResult := none, startOk := true, obs := exObsDone, tokenRes := none }

/-- Worker environment of item C: like A. -/
def envC : ItemEnv :=
  { prepareResult := some "tC", startOk := true, obs := exObsDone, tokenRes := some exTokC }

/-- Idle hook state before addToQueue. -/
def exIdleState : MQState :=
  { queue := [], currentIdx := 0, isProcessing := false, processingRef := false }

/-- Queue state right after addToQueue in the C4 scenario. -/
def exStart : MQState := addToQueue exIdGen exIdleState exScenarioItems

/-- State after item A has been processed to ready (queue stalls for the
tap). -/
def exAfterA : MQState := runQueue exStart [envA]

/-- Final scenario state: the user taps A, then B fails fast and the queue
advances to C, which reaches ready. -/
def exFinal : MQState := tapAndContinue exAfterA (some exTokA) [envB, envC]

/-- C4: processNext always selects the first pending item; an item whose
originalUrl is absent fails before any API call, transitioning to error with
the queue advancing after the error delay; and in the scenario with valid A,
invalid B, valid C, the failure of B does not block C: A ends completed, B
ends error and C still reaches ready. -/
theorem queue_sequential_order :
    (∀ q i, findPendingIdx q = some i ↔
      ∃ it, q[i]? = some it ∧ it.status = .pending ∧
        ∀ j, j < i → ∀ u, q[j]? = some u → u.status ≠ .pending) ∧
    (∀ env item, item.originalUrl = "" →
      runItem env item =
        ([], [.setStatus .preparing 10, .setStatus .qError 0], .errAdvance 1000)) ∧
    exFinal.queue.map QueueItem.status = [.completed, .qError, .ready] :=
  ⟨findPendingIdx_first, invalid_url_fails_fast, by decide⟩

/-- A pending queue item with a valid URL, for witnesses. -/
def exPendingItem : QueueItem :=
  { id := exTaskId, originalUrl := exUrlA, title := exTitleA, status := .pending, progress := 0 }

/-- A queue item with an absent originalUrl, for witnesses. -/
def exInvalidItem : QueueItem :=
  { id := exTaskId, originalUrl := exNoUrl, title := exTitleB, status := .pending, progress := 0 }

/-- Witness for C4: the selection spec holds at a concrete singleton queue and
the invalid item fails fast at a concrete environment. -/
theorem queue_sequential_order_witness :
    findPendingIdx [exPendingItem] = some 0 ∧
    runItem envB exInvalidItem =
      ([], [.setStatus .preparing 10, .setStatus .qError 0], .errAdvance 1000) :=
  ⟨(queue_sequential_order.1 [exPendingItem] 0).2
      ⟨exPendingItem, rfl, rfl, fun j hj _ _ => absurd hj (Nat.not_lt_zero j)⟩,
   queue_sequential_order.2.1 envB exInvalidItem rfl⟩

/-- An observation that keeps the polling loop running: the task is absent or
reported with a status that is neither completed nor error. -/
def obsActive (o : ServerObs) : Bool :=
  match o with
  | .absent => true
  | .found st _ => decide (st ≠ "completed") && decide (st ≠ "error")

theorem runPoll_cap_of_active (taskId : String) (obs : Nat → ServerObs)
    (tok : Option String) :
    ∀ fuel attempt,
      (∀ a, attempt ≤ a → a < attempt + fuel → obsActive (obs a) = true) →
      (runPoll taskId obs tok fuel attempt).2.2 = PollExit.errAdvance 0 ∧
      ∃ us, (runPoll taskId obs tok fuel attempt).2.1 =
        us ++ [QUpdate.setStatus .qError 0] := by
  intro fuel
  induction fuel with
  | zero =>
    intro attempt _
    exact ⟨rfl, [], rfl⟩
  | succ n ih =>
    intro attempt h
    have hact : obsActive (obs attempt) = true := h attempt le_rfl (by omega)
    have hrest := ih (attempt + 1) (fun a ha hb => h a (by omega) (by omega))
    obtain ⟨us, hus⟩ := hrest.2
    cases ho : obs attempt with
    | absent =>
      constructor
      · simp only [runPoll, ho, pollTick]
        exact hrest.1
      · refine ⟨us, ?_⟩
        simp only [runPoll, ho, pollTick]
        simpa using hus
    | found st p =>
      rw [ho] at hact
      simp only [obsActive, Bool.and_eq_true, decide_eq_true_eq] at hact
      constructor
      · simp only [runPoll, ho, pollTick, if_neg hact.1, if_neg hact.2]
        exact hrest.1
      · refine ⟨QUpdate.setStatus .downloading (mapProgress p) :: us, ?_⟩
        simp only [runPoll, ho, pollTick, if_neg hact.1, if_neg hact.2]
        simp [hus]

/-- Observation that is stuck downloading forever. -/
def exObsStuck : Nat → ServerObs := fun _ => .found "downloading" (some 10)

/-- Observation reporting a server error at once. -/
def exObsErr : Nat → ServerObs := fun _ => .found "error" none

/-- Counterexample for C5 as stated: the attempt cap and a server-reported
error are not treated identically in how the queue advances — the cap invokes
processNext immediately (delay 0) while a server-reported error schedules it
after 1000 ms. -/
theorem attempt_cap_not_identical :
    (runPoll exTaskId exObsStuck none 300 1).2.2 = PollExit.errAdvance 0 ∧
    (runPoll exTaskId exObsErr none 300 1).2.2 = PollExit.errAdvance 1000 ∧
    PollExit.errAdvance 0 ≠ PollExit.errAdvance 1000 :=
  ⟨(runPoll_cap_of_active exTaskId exObsStuck none 300 1 (fun a _ _ => rfl)).1,
   by decide, by decide⟩

/-- C5 (amended): a queue item whose polling loop never observes the matching
task completed or errored within the 300 attempts transitions to error with
progress 0 once the counter exceeds the cap, the same terminal state as for a
server-reported error, but the cap branch invokes processNext immediately
whereas a server-reported error schedules it after a 1000 ms delay. -/
theorem attempt_cap_exhaustion (taskId : String) (obs : Nat → ServerObs)
    (tok : Option String) (item : QueueItem)
    (h : ∀ a, 1 ≤ a → a ≤ 300 → obsActive (obs a) = true) :
    (runPoll taskId obs tok 300 1).2.2 = PollExit.errAdvance 0 ∧
    (applyUpdates item (runPoll taskId obs tok 300 1).2.1).status = .qError ∧
    (applyUpdates item (runPoll taskId obs tok 300 1).2.1).progress = 0 := by
  have hcap := runPoll_cap_of_active taskId obs tok 300 1 (fun a ha hb => h a ha (by omega))
  obtain ⟨us, hus⟩ := hcap.2
  refine ⟨hcap.1, ?_, ?_⟩ <;>
    rw [hus] <;> simp [applyUpdates, List.foldl_append, applyUpdate]

/-- Observation where the task is never found at all. -/
def exObsAbsent : Nat → ServerObs := fun _ => ServerObs.absent

/-- Witness for C5 (amended) with a task that is never found: the cap fires
and the item ends in error with progress 0. -/
theorem attempt_cap_exhaustion_witness :
    (runPoll exTaskId exObsAbsent none 300 1).2.2 = PollExit.errAdvance 0 ∧
    (applyUpdates exPendingItem (runPoll exTaskId exObsAbsent none 300 1).2.1).status = .qError ∧
    (applyUpdates exPendingItem (runPoll exTaskId exObsAbsent none 300 1).2.1).progress = 0 :=
  attempt_cap_exhaustion exTaskId exObsAbsent none exPendingItem (fun _ _ _ => rfl)

end Aura
